import Mathlib

/-!
Verification development for the adbc-clickhouse driver core.

The Rust source is shallowly embedded: `GetObjectsBuilder` (src/utils/get_objects.rs),
`GetInfoBuilder` (src/utils/get_info.rs), `from_clickhouse_error` and the
`NativeClientExt` SQL generators (src/utils.rs), and `ClickhouseStatement::execute`
(src/statement.rs).  The network executor is modelled as an oracle supplying the
row sequences each fetch call returns; `i32` offset arithmetic is modelled with
explicit wrapping (`wrap32`).
-/

namespace AdbcClickhouse

/-- Two's-complement wrap of an integer into the `i32` range, modelling Rust's
release-mode wrapping arithmetic and `usize as i32` truncation. -/
def wrap32 (x : Int) : Int := (x + 2 ^ 31) % 2 ^ 32 - 2 ^ 31

/-- `adbc_core::options::ObjectDepth` (external crate enum, variants as matched in
src/utils/get_objects.rs). -/
inductive ObjectDepth where
  | all
  | catalogs
  | schemas
  | tables
  | columns
deriving DecidableEq

/-- Modelled from the spec: `is_schema_required` is referenced by
src/utils/get_objects.rs but its definition is not under src/.  Spec §4.1/§8:
the schema level is fetched for every depth except Catalogs (matching the
materialization arm for `catalog_db_schemas_array`). -/
def is_schema_required : ObjectDepth → Bool
  | .catalogs => false
  | _ => true

/-- Modelled from the spec: `is_table_required` is referenced by
src/utils/get_objects.rs but its definition is not under src/.  Spec §4.1/§8:
tables are fetched only when depth is Tables, Columns or All (matching the
materialization arm for `db_schema_tables_array`). -/
def is_table_required : ObjectDepth → Bool
  | .tables | .columns | .all => true
  | _ => false

/-- Modelled from the spec: `is_column_required` is referenced by
src/utils/get_objects.rs but its definition is not under src/.  Spec §4.1/§8:
columns are fetched only when depth is Columns or All (matching the
materialization arm for `table_columns_array`). -/
def is_column_required : ObjectDepth → Bool
  | .columns | .all => true
  | _ => false

/-- Numeric nesting level of a depth: Catalogs 0, Schemas 1, Tables 2,
Columns 3; All is an alias for full Columns depth (spec §6). -/
def depthLevel : ObjectDepth → Nat
  | .catalogs => 0
  | .schemas => 1
  | .tables => 2
  | .columns => 3
  | .all => 3

/-- Row returned by the per-level schema fetch (`fetch_schemas`): the builder
reads only `.name`. -/
structure SchemaRowM where
  name : String
deriving DecidableEq

/-- Row returned by the per-schema table fetch (`fetch_schema_tables`): the
builder reads only `.name`; `ttype` records the backend table type, which the
builder never reads. -/
structure TableRowM where
  name : String
  ttype : String
deriving DecidableEq

/-- Row returned by the per-table column fetch (`fetch_table_columns`): the
builder reads `.name` and `.ctype` (the Rust field `r#type`). -/
structure ColumnRowM where
  name : String
  ctype : String
deriving DecidableEq

/-- Oracle for the external `NativeClient` executor: the row sequences each
fetch call returns, as a function of the arguments the builder passes
(spec §2: the executor is an external collaborator specified at its
interface). -/
structure Executor where
  fetchSchemas : String → List SchemaRowM
  fetchTables : String → String → List TableRowM
  fetchColumns : String → String → String → List ColumnRowM

/-- State of `GetObjectsBuilder` (src/utils/get_objects.rs lines 14-31). -/
structure GetObjectsBuilder where
  catalog_names : List String
  catalog_db_schema_offsets : List Int
  catalog_db_schema_offset_prev : Int
  catalog_db_schema_names : List String
  table_offsets : List Int
  table_offset_prev : Int
  table_names : List String
  table_types : List String
  column_offsets : List Int
  column_offset_prev : Int
  column_names : List String
  column_types : List String
  db_schema : String
  table_name : String
  column_name : String
deriving DecidableEq

/-- `GetObjectsBuilder::new` (src/utils/get_objects.rs lines 34-57): empty
accumulators, offset buffers seeded with `[0]`, absent filters replaced by
the `%` wildcard. -/
def GetObjectsBuilder.new (db_schema table_name column_name : Option String) :
    GetObjectsBuilder where
  catalog_names := []
  catalog_db_schema_offsets := [0]
  catalog_db_schema_offset_prev := 0
  catalog_db_schema_names := []
  table_offsets := [0]
  table_offset_prev := 0
  table_names := []
  table_types := []
  column_offsets := [0]
  column_offset_prev := 0
  column_names := []
  column_types := []
  db_schema := db_schema.getD "%"
  table_name := table_name.getD "%"
  column_name := column_name.getD "%"

/-- Inner loop of `build` over the tables of one schema (src/utils/get_objects.rs
lines 113-139): fetch the columns of each table, extend the column
accumulators and push a column offset. -/
def columnsLoop (exec : Executor) (schemaName : String) (ts : List TableRowM)
    (b : GetObjectsBuilder) : GetObjectsBuilder :=
  ts.foldl
    (fun b table =>
      let columns := exec.fetchColumns schemaName table.name b.column_name
      let p := wrap32 (b.column_offset_prev + wrap32 (columns.length : Int))
      { b with
        column_offset_prev := p
        column_names := b.column_names ++ columns.map (·.name)
        column_types := b.column_types ++ columns.map (·.ctype)
        column_offsets := b.column_offsets ++ [p] })
    b

/-- One iteration of `build`'s loop over schemas (src/utils/get_objects.rs
lines 89-141): fetch the schema's tables, extend the table accumulators,
push a table offset, and when columns are required run the inner loop. -/
def schemasStep (exec : Executor) (depth : ObjectDepth) (b : GetObjectsBuilder)
    (schema : SchemaRowM) : GetObjectsBuilder :=
  let tables := exec.fetchTables schema.name b.table_name
  let p := wrap32 (b.table_offset_prev + wrap32 (tables.length : Int))
  let b :=
    { b with
      table_names := b.table_names ++ tables.map (·.name)
      table_offset_prev := p
      table_offsets := b.table_offsets ++ [p]
      table_types := b.table_types ++ List.replicate tables.length "default" }
  if is_column_required depth then columnsLoop exec schema.name tables b else b

/-- The fetch phase of `GetObjectsBuilder::build` (src/utils/get_objects.rs
lines 65-143): push the fixed "default" catalog, then fetch schemas, tables
and columns as gated by the depth. -/
def fetchPhase (exec : Executor) (depth : ObjectDepth) (b : GetObjectsBuilder) :
    GetObjectsBuilder :=
  let b := { b with catalog_names := b.catalog_names ++ ["default"] }
  if is_schema_required depth then
    let schemas := exec.fetchSchemas b.db_schema
    let p := wrap32 (b.catalog_db_schema_offset_prev + wrap32 (schemas.length : Int))
    let b :=
      { b with
        catalog_db_schema_names := b.catalog_db_schema_names ++ schemas.map (·.name)
        catalog_db_schema_offset_prev := p
        catalog_db_schema_offsets := b.catalog_db_schema_offsets ++ [p] }
    if is_table_required depth then schemas.foldl (schemasStep exec depth) b else b
  else b

/-- An Arrow `ListArray` over a child array of type `α`: either built from an
`i32` offset buffer (`ListArray::new`) or an all-null list array of a given
length (`ListArray::new_null`). -/
inductive ListArr (α : Type) where
  | ofOffsets (offsets : List Int) (values : α)
  | nullList (len : Nat)
deriving DecidableEq

/-- The flattened column `StructArray` (src/utils/get_objects.rs lines 149-230):
`column_name` and `xdbc_type_name` carry the fetched data, every other field
is an all-null array of the same length (`new_null`).  Nullable arrays are
lists of options. -/
structure ColumnsStructArray where
  column_name : List String
  ordinal_position : List (Option Int)
  remarks : List (Option String)
  xdbc_data_type : List (Option Int)
  xdbc_type_name : List (Option String)
  xdbc_column_size : List (Option Int)
  xdbc_decimal_digits : List (Option Int)
  xdbc_num_prec_radix : List (Option Int)
  xdbc_nullable : List (Option Int)
  xdbc_column_def : List (Option String)
  xdbc_sql_data_type : List (Option Int)
  xdbc_datetime_sub : List (Option Int)
  xdbc_char_octet_length : List (Option Int)
  xdbc_is_nullable : List (Option String)
  xdbc_scope_catalog : List (Option String)
  xdbc_scope_schema : List (Option String)
  xdbc_scope_table : List (Option String)
  xdbc_is_autoincrement : List (Option Bool)
  xdbc_is_generatedcolumn : List (Option Bool)
deriving DecidableEq

/-- Builds the column `StructArray` from the accumulated names and types,
mirroring the `StructArray::from(vec![...])` expression: all other arrays are
`new_null(column_names.len())`. -/
def mkColumnsStruct (names types : List String) : ColumnsStructArray where
  column_name := names
  ordinal_position := List.replicate names.length none
  remarks := List.replicate names.length none
  xdbc_data_type := List.replicate names.length none
  xdbc_type_name := types.map some
  xdbc_column_size := List.replicate names.length none
  xdbc_decimal_digits := List.replicate names.length none
  xdbc_num_prec_radix := List.replicate names.length none
  xdbc_nullable := List.replicate names.length none
  xdbc_column_def := List.replicate names.length none
  xdbc_sql_data_type := List.replicate names.length none
  xdbc_datetime_sub := List.replicate names.length none
  xdbc_char_octet_length := List.replicate names.length none
  xdbc_is_nullable := List.replicate names.length none
  xdbc_scope_catalog := List.replicate names.length none
  xdbc_scope_schema := List.replicate names.length none
  xdbc_scope_table := List.replicate names.length none
  xdbc_is_autoincrement := List.replicate names.length none
  xdbc_is_generatedcolumn := List.replicate names.length none

/-- The table `StructArray` (src/utils/get_objects.rs lines 254-279): names,
types, nested column list and the always-null constraints list (whose child
struct is never built, modelled with child type `Unit`). -/
structure TablesStructArray where
  table_name : List String
  table_type : List String
  table_columns : ListArr ColumnsStructArray
  table_constraints : ListArr Unit
deriving DecidableEq

/-- The db-schema `StructArray` (src/utils/get_objects.rs lines 299-313). -/
structure DbSchemasStructArray where
  db_schema_name : List String
  db_schema_tables : ListArr TablesStructArray
deriving DecidableEq

/-- The record returned by `GetObjectsBuilder::build` (src/utils/get_objects.rs
lines 336-346): the catalog name column and the catalog_db_schemas list
column. -/
structure GetObjectsRecord where
  catalog_name : List String
  catalog_db_schemas : ListArr DbSchemasStructArray
deriving DecidableEq

/-- The encode phase of `GetObjectsBuilder::build` (src/utils/get_objects.rs
lines 147-346): per depth, each list column is either built from its offset
buffer or is a null list sized to its parent's row count. -/
def encodePhase (b : GetObjectsBuilder) (depth : ObjectDepth) : GetObjectsRecord :=
  let table_columns_array : ListArr ColumnsStructArray :=
    match depth with
    | .columns | .all =>
        .ofOffsets b.column_offsets (mkColumnsStruct b.column_names b.column_types)
    | _ => .nullList b.table_names.length
  let db_schema_tables_array : ListArr TablesStructArray :=
    match depth with
    | .tables | .columns | .all =>
        .ofOffsets b.table_offsets
          { table_name := b.table_names
            table_type := b.table_types
            table_columns := table_columns_array
            table_constraints := .nullList b.table_names.length }
    | _ => .nullList b.catalog_db_schema_names.length
  let catalog_db_schemas_array : ListArr DbSchemasStructArray :=
    match depth with
    | .columns | .tables | .schemas | .all =>
        .ofOffsets b.catalog_db_schema_offsets
          { db_schema_name := b.catalog_db_schema_names
            db_schema_tables := db_schema_tables_array }
    | _ => .nullList b.catalog_names.length
  { catalog_name := b.catalog_names
    catalog_db_schemas := catalog_db_schemas_array }

/-- `GetObjectsBuilder::build` (src/utils/get_objects.rs lines 59-347) on the
happy path: run the depth-gated fetch phase, then encode the accumulated
buffers into the nested record. -/
def GetObjectsBuilder.build (b : GetObjectsBuilder) (exec : Executor)
    (depth : ObjectDepth) : GetObjectsRecord :=
  encodePhase (fetchPhase exec depth b) depth

/-- `ClickhouseConnection::get_objects` (src/connection.rs lines 156-170): the
catalog and table-type filters are dropped (`_catalog`, `_table_type`); only
db_schema, table_name and column_name reach the builder. -/
def connectionGetObjects (exec : Executor) (depth : ObjectDepth)
    (catalog : Option String) (db_schema : Option String)
    (table_name : Option String) (table_type : Option (List String))
    (column_name : Option String) : GetObjectsRecord :=
  let _ := catalog
  let _ := table_type
  (GetObjectsBuilder.new db_schema table_name column_name).build exec depth

/-! ### Closed forms for the accumulated buffers -/

/-- Offsets appended by a run of count-pushes: each step appends
`wrap32 (prev + wrap32 count)` and carries it as the new running offset. -/
def offsAcc (p : Int) : List Nat → List Int
  | [] => []
  | n :: rest => wrap32 (p + wrap32 (n : Int)) :: offsAcc (wrap32 (p + wrap32 (n : Int))) rest

/-- The running offset after a run of count-pushes. -/
def offsEnd (p : Int) : List Nat → Int
  | [] => p
  | n :: rest => offsEnd (wrap32 (p + wrap32 (n : Int))) rest

/-- Exact (unwrapped) partial sums, used to describe `offsAcc` when no `i32`
overflow occurs. -/
def sums (p : Int) : List Nat → List Int
  | [] => []
  | n :: rest => (p + n) :: sums (p + n) rest

/-- Per-schema table counts, in schema order. -/
def tableCountsOf (exec : Executor) (tf : String) (ss : List SchemaRowM) : List Nat :=
  ss.map (fun s => (exec.fetchTables s.name tf).length)

/-- All fetched table names, flattened in schema order. -/
def tableNamesOf (exec : Executor) (tf : String) (ss : List SchemaRowM) : List String :=
  (ss.map (fun s => (exec.fetchTables s.name tf).map (·.name))).flatten

/-- Per-table column counts for the tables of one schema. -/
def colCountsOfSchema (exec : Executor) (cf sName : String) (ts : List TableRowM) : List Nat :=
  ts.map (fun t => (exec.fetchColumns sName t.name cf).length)

/-- Column names of the tables of one schema, flattened in table order. -/
def colNamesOfSchema (exec : Executor) (cf sName : String) (ts : List TableRowM) : List String :=
  (ts.map (fun t => (exec.fetchColumns sName t.name cf).map (·.name))).flatten

/-- Column types of the tables of one schema, flattened in table order. -/
def colTypesOfSchema (exec : Executor) (cf sName : String) (ts : List TableRowM) : List String :=
  (ts.map (fun t => (exec.fetchColumns sName t.name cf).map (·.ctype))).flatten

/-- Per-table column counts across all schemas, flattened in traversal order. -/
def colCountsOf (exec : Executor) (tf cf : String) (ss : List SchemaRowM) : List Nat :=
  (ss.map (fun s => colCountsOfSchema exec cf s.name (exec.fetchTables s.name tf))).flatten

/-- All fetched column names, flattened in traversal order. -/
def colNamesOf (exec : Executor) (tf cf : String) (ss : List SchemaRowM) : List String :=
  (ss.map (fun s => colNamesOfSchema exec cf s.name (exec.fetchTables s.name tf))).flatten

/-- All fetched column types, flattened in traversal order. -/
def colTypesOf (exec : Executor) (tf cf : String) (ss : List SchemaRowM) : List String :=
  (ss.map (fun s => colTypesOfSchema exec cf s.name (exec.fetchTables s.name tf))).flatten

/-- The (schema name, table name) parent pair of each column sublist, in
traversal order. -/
def tableParentsOf (exec : Executor) (tf : String) (ss : List SchemaRowM) :
    List (String × String) :=
  (ss.map (fun s => (exec.fetchTables s.name tf).map (fun t => (s.name, t.name)))).flatten

/-! ### Characterization of the fetch-phase loops -/

theorem columnsLoop_cons (exec : Executor) (sName : String) (t : TableRowM)
    (ts : List TableRowM) (b : GetObjectsBuilder) :
    columnsLoop exec sName (t :: ts) b =
      columnsLoop exec sName ts
        (let columns := exec.fetchColumns sName t.name b.column_name
         let p := wrap32 (b.column_offset_prev + wrap32 (columns.length : Int))
         { b with
           column_offset_prev := p
           column_names := b.column_names ++ columns.map (·.name)
           column_types := b.column_types ++ columns.map (·.ctype)
           column_offsets := b.column_offsets ++ [p] }) := rfl

theorem columnsLoop_eq (exec : Executor) (sName : String) (ts : List TableRowM)
    (b : GetObjectsBuilder) :
    columnsLoop exec sName ts b =
      { b with
        column_offset_prev := offsEnd b.column_offset_prev (colCountsOfSchema exec b.column_name sName ts)
        column_names := b.column_names ++ colNamesOfSchema exec b.column_name sName ts
        column_types := b.column_types ++ colTypesOfSchema exec b.column_name sName ts
        column_offsets := b.column_offsets ++ offsAcc b.column_offset_prev (colCountsOfSchema exec b.column_name sName ts) } := by
  induction ts generalizing b with
  | nil =>
      simp [columnsLoop, colCountsOfSchema, colNamesOfSchema, colTypesOfSchema, offsAcc, offsEnd]
  | cons t ts ih =>
      rw [columnsLoop_cons, ih]
      cases b
      simp [colCountsOfSchema, colNamesOfSchema, colTypesOfSchema, offsAcc, offsEnd,
        List.append_assoc]

theorem offsEnd_append (p : Int) (c1 c2 : List Nat) :
    offsEnd p (c1 ++ c2) = offsEnd (offsEnd p c1) c2 := by
  induction c1 generalizing p with
  | nil => simp [offsEnd]
  | cons n c1 ih => simp [offsEnd, ih]

theorem offsAcc_append (p : Int) (c1 c2 : List Nat) :
    offsAcc p (c1 ++ c2) = offsAcc p c1 ++ offsAcc (offsEnd p c1) c2 := by
  induction c1 generalizing p with
  | nil => simp [offsAcc, offsEnd]
  | cons n c1 ih => simp [offsAcc, offsEnd, ih]

theorem schemasFold_cons (exec : Executor) (depth : ObjectDepth) (s : SchemaRowM)
    (ss : List SchemaRowM) (b : GetObjectsBuilder) :
    (s :: ss).foldl (schemasStep exec depth) b =
      ss.foldl (schemasStep exec depth) (schemasStep exec depth b s) := rfl

theorem schemasStep_false (exec : Executor) (depth : ObjectDepth)
    (hc : is_column_required depth = false) (b : GetObjectsBuilder) (s : SchemaRowM) :
    schemasStep exec depth b s =
      (let tables := exec.fetchTables s.name b.table_name
       let p := wrap32 (b.table_offset_prev + wrap32 (tables.length : Int))
       { b with
         table_names := b.table_names ++ tables.map (·.name)
         table_offset_prev := p
         table_offsets := b.table_offsets ++ [p]
         table_types := b.table_types ++ List.replicate tables.length "default" }) := by
  simp [schemasStep, hc]

set_option maxRecDepth 100000 in
theorem schemasFold_eq_false (exec : Executor) (depth : ObjectDepth)
    (hc : is_column_required depth = false) (ss : List SchemaRowM) (b : GetObjectsBuilder) :
    ss.foldl (schemasStep exec depth) b =
      { b with
        table_names := b.table_names ++ tableNamesOf exec b.table_name ss
        table_offset_prev := offsEnd b.table_offset_prev (tableCountsOf exec b.table_name ss)
        table_offsets := b.table_offsets ++ offsAcc b.table_offset_prev (tableCountsOf exec b.table_name ss)
        table_types := b.table_types ++ List.replicate (tableCountsOf exec b.table_name ss).sum "default" } := by
  induction ss generalizing b with
  | nil => simp [tableNamesOf, tableCountsOf, offsAcc, offsEnd]
  | cons s ss ih =>
      rw [schemasFold_cons, schemasStep_false exec depth hc, ih]
      cases b
      simp only [tableNamesOf, tableCountsOf, offsAcc, offsEnd, List.map_cons,
        List.flatten_cons, List.sum_cons, List.replicate_add, List.append_assoc,
        GetObjectsBuilder.mk.injEq]
      simp

set_option maxRecDepth 100000 in
theorem schemasFold_eq_true (exec : Executor) (depth : ObjectDepth)
    (hc : is_column_required depth = true) (ss : List SchemaRowM) (b : GetObjectsBuilder) :
    ss.foldl (schemasStep exec depth) b =
      { b with
        table_names := b.table_names ++ tableNamesOf exec b.table_name ss
        table_offset_prev := offsEnd b.table_offset_prev (tableCountsOf exec b.table_name ss)
        table_offsets := b.table_offsets ++ offsAcc b.table_offset_prev (tableCountsOf exec b.table_name ss)
        table_types := b.table_types ++ List.replicate (tableCountsOf exec b.table_name ss).sum "default"
        column_offset_prev := offsEnd b.column_offset_prev (colCountsOf exec b.table_name b.column_name ss)
        column_names := b.column_names ++ colNamesOf exec b.table_name b.column_name ss
        column_types := b.column_types ++ colTypesOf exec b.table_name b.column_name ss
        column_offsets := b.column_offsets ++ offsAcc b.column_offset_prev (colCountsOf exec b.table_name b.column_name ss) } := by
  induction ss generalizing b with
  | nil =>
      simp [tableNamesOf, tableCountsOf, colCountsOf, colNamesOf, colTypesOf, offsAcc, offsEnd]
  | cons s ss ih =>
      rw [schemasFold_cons]
      show ss.foldl (schemasStep exec depth)
        (schemasStep exec depth b s) = _
      rw [show schemasStep exec depth b s =
            columnsLoop exec s.name (exec.fetchTables s.name b.table_name)
              (let tables := exec.fetchTables s.name b.table_name
               let p := wrap32 (b.table_offset_prev + wrap32 (tables.length : Int))
               { b with
                 table_names := b.table_names ++ tables.map (·.name)
                 table_offset_prev := p
                 table_offsets := b.table_offsets ++ [p]
                 table_types := b.table_types ++ List.replicate tables.length "default" }) by
        simp [schemasStep, hc]]
      rw [columnsLoop_eq, ih]
      cases b
      simp only [tableNamesOf, tableCountsOf, colCountsOf, colNamesOf, colTypesOf,
        colCountsOfSchema, colNamesOfSchema, colTypesOfSchema, offsAcc, offsEnd,
        List.map_cons, List.flatten_cons, List.sum_cons, List.replicate_add,
        List.append_assoc, offsAcc_append, offsEnd_append, GetObjectsBuilder.mk.injEq]
      simp

theorem wrap32_nonneg_lb (x : Int) : -2 ^ 31 ≤ wrap32 x := by
  have h := Int.emod_nonneg (x + 2 ^ 31) (by norm_num : (2 ^ 32 : Int) ≠ 0)
  unfold wrap32
  omega

theorem wrap32_lt_ub (x : Int) : wrap32 x < 2 ^ 31 := by
  have h := Int.emod_lt_of_pos (x + 2 ^ 31) (by norm_num : (0 : Int) < 2 ^ 32)
  unfold wrap32
  omega

theorem wrap32_eq_self (x : Int) (h1 : -2 ^ 31 ≤ x) (h2 : x < 2 ^ 31) : wrap32 x = x := by
  unfold wrap32
  rw [Int.emod_eq_of_lt (by omega) (by omega)]
  omega

@[simp]
theorem wrap32_wrap32 (x : Int) : wrap32 (wrap32 x) = wrap32 x :=
  wrap32_eq_self _ (wrap32_nonneg_lb x) (wrap32_lt_ub x)

set_option maxRecDepth 10000 in
theorem fetchPhase_eq_noSchemas (exec : Executor) (dbf tnf cf : Option String)
    (depth : ObjectDepth) (hs : is_schema_required depth = false) :
    fetchPhase exec depth (GetObjectsBuilder.new dbf tnf cf) =
      { GetObjectsBuilder.new dbf tnf cf with catalog_names := ["default"] } := by
  simp [fetchPhase, hs, GetObjectsBuilder.new]

set_option maxRecDepth 10000 in
theorem fetchPhase_eq_schemasOnly (exec : Executor) (dbf tnf cf : Option String)
    (depth : ObjectDepth) (hs : is_schema_required depth = true)
    (ht : is_table_required depth = false) :
    fetchPhase exec depth (GetObjectsBuilder.new dbf tnf cf) =
      { GetObjectsBuilder.new dbf tnf cf with
        catalog_names := ["default"]
        catalog_db_schema_names := (exec.fetchSchemas (dbf.getD "%")).map (·.name)
        catalog_db_schema_offset_prev := wrap32 ((exec.fetchSchemas (dbf.getD "%")).length : Int)
        catalog_db_schema_offsets := [0, wrap32 ((exec.fetchSchemas (dbf.getD "%")).length : Int)] } := by
  simp [fetchPhase, hs, ht, GetObjectsBuilder.new]

set_option maxRecDepth 10000 in
theorem fetchPhase_eq_tables (exec : Executor) (dbf tnf cf : Option String)
    (depth : ObjectDepth) (hs : is_schema_required depth = true)
    (ht : is_table_required depth = true) (hc : is_column_required depth = false) :
    fetchPhase exec depth (GetObjectsBuilder.new dbf tnf cf) =
      { GetObjectsBuilder.new dbf tnf cf with
        catalog_names := ["default"]
        catalog_db_schema_names := (exec.fetchSchemas (dbf.getD "%")).map (·.name)
        catalog_db_schema_offset_prev := wrap32 ((exec.fetchSchemas (dbf.getD "%")).length : Int)
        catalog_db_schema_offsets := [0, wrap32 ((exec.fetchSchemas (dbf.getD "%")).length : Int)]
        table_names := tableNamesOf exec (tnf.getD "%") (exec.fetchSchemas (dbf.getD "%"))
        table_offset_prev := offsEnd 0 (tableCountsOf exec (tnf.getD "%") (exec.fetchSchemas (dbf.getD "%")))
        table_offsets := 0 :: offsAcc 0 (tableCountsOf exec (tnf.getD "%") (exec.fetchSchemas (dbf.getD "%")))
        table_types := List.replicate (tableCountsOf exec (tnf.getD "%") (exec.fetchSchemas (dbf.getD "%"))).sum "default" } := by
  simp only [fetchPhase, hs, ht, if_true, GetObjectsBuilder.new, Bool.true_eq_false,
    if_false, ite_true]
  rw [schemasFold_eq_false exec depth hc]
  simp

set_option maxRecDepth 10000 in
theorem fetchPhase_eq_columns (exec : Executor) (dbf tnf cf : Option String)
    (depth : ObjectDepth) (hs : is_schema_required depth = true)
    (ht : is_table_required depth = true) (hc : is_column_required depth = true) :
    fetchPhase exec depth (GetObjectsBuilder.new dbf tnf cf) =
      { catalog_names := ["default"]
        catalog_db_schema_names := (exec.fetchSchemas (dbf.getD "%")).map (·.name)
        catalog_db_schema_offset_prev := wrap32 ((exec.fetchSchemas (dbf.getD "%")).length : Int)
        catalog_db_schema_offsets := [0, wrap32 ((exec.fetchSchemas (dbf.getD "%")).length : Int)]
        table_names := tableNamesOf exec (tnf.getD "%") (exec.fetchSchemas (dbf.getD "%"))
        table_offset_prev := offsEnd 0 (tableCountsOf exec (tnf.getD "%") (exec.fetchSchemas (dbf.getD "%")))
        table_offsets := 0 :: offsAcc 0 (tableCountsOf exec (tnf.getD "%") (exec.fetchSchemas (dbf.getD "%")))
        table_types := List.replicate (tableCountsOf exec (tnf.getD "%") (exec.fetchSchemas (dbf.getD "%"))).sum "default"
        column_names := colNamesOf exec (tnf.getD "%") (cf.getD "%") (exec.fetchSchemas (dbf.getD "%"))
        column_types := colTypesOf exec (tnf.getD "%") (cf.getD "%") (exec.fetchSchemas (dbf.getD "%"))
        column_offset_prev := offsEnd 0 (colCountsOf exec (tnf.getD "%") (cf.getD "%") (exec.fetchSchemas (dbf.getD "%")))
        column_offsets := 0 :: offsAcc 0 (colCountsOf exec (tnf.getD "%") (cf.getD "%") (exec.fetchSchemas (dbf.getD "%")))
        db_schema := dbf.getD "%"
        table_name := tnf.getD "%"
        column_name := cf.getD "%" } := by
  simp only [fetchPhase, hs, ht, if_true, GetObjectsBuilder.new, Bool.true_eq_false,
    if_false, ite_true]
  rw [schemasFold_eq_true exec depth hc]
  simp

/-! ### Offset-buffer well-formedness -/

/-- Well-formedness of a list column's offset buffer relative to its parent
row count and the length of its flattened child array (spec §8, glossary). -/
def wellFormedOffsets (offs : List Int) (parent childLen : Nat) : Prop :=
  offs.length = parent + 1 ∧ offs.head? = some 0 ∧
    List.Chain' (· ≤ ·) offs ∧ offs.getLast? = some (childLen : Int)

theorem offsAcc_length (p : Int) (c : List Nat) : (offsAcc p c).length = c.length := by
  induction c generalizing p with
  | nil => rfl
  | cons n r ih => simp [offsAcc, ih]

theorem offsAcc_eq_sums (p : Int) (c : List Nat) (hp : 0 ≤ p)
    (h : p + (c.sum : Int) < 2 ^ 31) : offsAcc p c = sums p c := by
  induction c generalizing p with
  | nil => rfl
  | cons n r ih =>
      have hc : ((n :: r).sum : Int) = (n : Int) + (r.sum : Int) := by
        push_cast [List.sum_cons]; ring
      have hn0 : (0 : Int) ≤ (n : Int) := Int.natCast_nonneg n
      have hr0 : (0 : Int) ≤ (r.sum : Int) := Int.natCast_nonneg _
      have hwn : wrap32 (n : Int) = (n : Int) := wrap32_eq_self _ (by omega) (by omega)
      have hwpn : wrap32 (p + (n : Int)) = p + (n : Int) :=
        wrap32_eq_self _ (by omega) (by omega)
      simp only [offsAcc, sums, hwn, hwpn]
      exact congrArg _ (ih (p + n) (by omega) (by omega))

theorem chain_cons_sums (p : Int) (c : List Nat) :
    List.Chain' (· ≤ ·) (p :: sums p c) := by
  induction c generalizing p with
  | nil => simp [sums]
  | cons n r ih =>
      simp only [sums, List.chain'_cons]
      exact ⟨by omega, ih (p + n)⟩

theorem getLast_cons_sums (p : Int) (c : List Nat) :
    (p :: sums p c).getLast? = some (p + (c.sum : Int)) := by
  induction c generalizing p with
  | nil => simp [sums]
  | cons n r ih =>
      have hc : ((n :: r).sum : Int) = (n : Int) + (r.sum : Int) := by
        push_cast [List.sum_cons]; ring
      simp only [sums, List.getLast?_cons_cons]
      rw [ih (p + n), hc]
      congr 1
      ring

theorem wellFormedOffsets_offsAcc (c : List Nat) (h : (c.sum : Int) < 2 ^ 31) :
    wellFormedOffsets (0 :: offsAcc 0 c) c.length c.sum := by
  have he : offsAcc 0 c = sums 0 c := offsAcc_eq_sums 0 c le_rfl (by omega)
  refine ⟨?_, rfl, ?_, ?_⟩
  · simp [offsAcc_length]
  · rw [he]; exact chain_cons_sums 0 c
  · rw [he]
    have := getLast_cons_sums 0 c
    simpa using this

@[simp]
theorem tableCountsOf_length (exec : Executor) (tf : String) (ss : List SchemaRowM) :
    (tableCountsOf exec tf ss).length = ss.length := by
  simp [tableCountsOf]

@[simp]
theorem tableNamesOf_length (exec : Executor) (tf : String) (ss : List SchemaRowM) :
    (tableNamesOf exec tf ss).length = (tableCountsOf exec tf ss).sum := by
  simp [tableNamesOf, tableCountsOf, List.length_flatten, List.map_map, Function.comp_def]

@[simp]
theorem colCountsOf_length (exec : Executor) (tf cf : String) (ss : List SchemaRowM) :
    (colCountsOf exec tf cf ss).length = (tableCountsOf exec tf ss).sum := by
  simp [colCountsOf, colCountsOfSchema, tableCountsOf, List.length_flatten,
    List.map_map, Function.comp_def]

@[simp]
theorem colNamesOf_length (exec : Executor) (tf cf : String) (ss : List SchemaRowM) :
    (colNamesOf exec tf cf ss).length = (colCountsOf exec tf cf ss).sum := by
  simp [colNamesOf, colNamesOfSchema, colCountsOf, colCountsOfSchema,
    List.length_flatten, List.sum_flatten, List.map_map, Function.comp_def]

/-- Sample executor used to instantiate hypotheses at a concrete input: one
schema `s1`, one table `v1` whose backend type is `VIEW`, one column `c1`. -/
def execSample : Executor where
  fetchSchemas := fun _ => [⟨"s1"⟩]
  fetchTables := fun _ _ => [⟨"v1", "VIEW"⟩]
  fetchColumns := fun _ _ _ => [⟨"c1", "Int32"⟩]

/-- C1: for every depth and executor result, each list column of the record
built by `GetObjectsBuilder::build` that is materialized from an offset
buffer (catalog_db_schemas, db_schema_tables, table_columns) has an offset
buffer of length parent-row-count + 1, starting at 0, non-decreasing, ending
at the flattened child array's length (given that no `i32` overflow occurs). -/
theorem C1_offset_buffers_wellformed (exec : Executor) (dbf tnf cf : Option String)
    (depth : ObjectDepth) (r : GetObjectsRecord)
    (hr : r = (GetObjectsBuilder.new dbf tnf cf).build exec depth)
    (h1 : ((exec.fetchSchemas (dbf.getD "%")).length : Int) < 2 ^ 31)
    (h2 : ((tableCountsOf exec (tnf.getD "%") (exec.fetchSchemas (dbf.getD "%"))).sum : Int) < 2 ^ 31)
    (h3 : ((colCountsOf exec (tnf.getD "%") (cf.getD "%") (exec.fetchSchemas (dbf.getD "%"))).sum : Int) < 2 ^ 31) :
    (∀ offs child, r.catalog_db_schemas = ListArr.ofOffsets offs child →
        wellFormedOffsets offs r.catalog_name.length child.db_schema_name.length) ∧
    (∀ offs1 c1 offs child, r.catalog_db_schemas = ListArr.ofOffsets offs1 c1 →
        c1.db_schema_tables = ListArr.ofOffsets offs child →
        wellFormedOffsets offs c1.db_schema_name.length child.table_name.length) ∧
    (∀ offs1 c1 offs2 c2 offs child, r.catalog_db_schemas = ListArr.ofOffsets offs1 c1 →
        c1.db_schema_tables = ListArr.ofOffsets offs2 c2 →
        c2.table_columns = ListArr.ofOffsets offs child →
        wellFormedOffsets offs c2.table_name.length child.column_name.length) := by
  subst hr
  have hschema : ∀ hs : is_schema_required depth = true,
      wellFormedOffsets [0, wrap32 ((exec.fetchSchemas (dbf.getD "%")).length : Int)] 1
        ((exec.fetchSchemas (dbf.getD "%")).map (·.name)).length := by
    intro _
    have h := wellFormedOffsets_offsAcc [(exec.fetchSchemas (dbf.getD "%")).length]
      (by simpa using h1)
    simpa [offsAcc] using h
  have htable :
      wellFormedOffsets
        (0 :: offsAcc 0 (tableCountsOf exec (tnf.getD "%") (exec.fetchSchemas (dbf.getD "%"))))
        ((exec.fetchSchemas (dbf.getD "%")).map (·.name)).length
        (tableNamesOf exec (tnf.getD "%") (exec.fetchSchemas (dbf.getD "%"))).length := by
    have h := wellFormedOffsets_offsAcc
      (tableCountsOf exec (tnf.getD "%") (exec.fetchSchemas (dbf.getD "%"))) h2
    simpa using h
  have hcol :
      wellFormedOffsets
        (0 :: offsAcc 0 (colCountsOf exec (tnf.getD "%") (cf.getD "%") (exec.fetchSchemas (dbf.getD "%"))))
        (tableNamesOf exec (tnf.getD "%") (exec.fetchSchemas (dbf.getD "%"))).length
        (colNamesOf exec (tnf.getD "%") (cf.getD "%") (exec.fetchSchemas (dbf.getD "%"))).length := by
    have h := wellFormedOffsets_offsAcc
      (colCountsOf exec (tnf.getD "%") (cf.getD "%") (exec.fetchSchemas (dbf.getD "%"))) h3
    simpa using h
  cases depth with
  | catalogs =>
      rw [GetObjectsBuilder.build, fetchPhase_eq_noSchemas exec dbf tnf cf .catalogs rfl]
      refine ⟨?_, ?_, ?_⟩ <;> intro offs1 c1
      · intro h
        simp [encodePhase, GetObjectsBuilder.new] at h
      · intro offs child h
        simp [encodePhase, GetObjectsBuilder.new] at h
      · intro offs2 c2 offs child h
        simp [encodePhase, GetObjectsBuilder.new] at h
  | schemas =>
      rw [GetObjectsBuilder.build, fetchPhase_eq_schemasOnly exec dbf tnf cf .schemas rfl rfl]
      refine ⟨?_, ?_, ?_⟩ <;> intro offs1 c1
      · intro h
        simp only [encodePhase, GetObjectsBuilder.new, ListArr.ofOffsets.injEq] at h
        obtain ⟨ho, hc⟩ := h
        subst ho; subst hc
        simpa [GetObjectsBuilder.new] using hschema rfl
      · intro offs child h1x h2x
        simp only [encodePhase, GetObjectsBuilder.new, ListArr.ofOffsets.injEq] at h1x
        obtain ⟨ho, hc⟩ := h1x
        subst hc
        simp at h2x
      · intro offs2 c2 offs child h1x h2x h3x
        simp only [encodePhase, GetObjectsBuilder.new, ListArr.ofOffsets.injEq] at h1x
        obtain ⟨ho, hc⟩ := h1x
        subst hc
        simp at h2x
  | tables =>
      rw [GetObjectsBuilder.build, fetchPhase_eq_tables exec dbf tnf cf .tables rfl rfl rfl]
      refine ⟨?_, ?_, ?_⟩ <;> intro offs1 c1
      · intro h
        simp only [encodePhase, GetObjectsBuilder.new, ListArr.ofOffsets.injEq] at h
        obtain ⟨ho, hc⟩ := h
        subst ho; subst hc
        simpa [GetObjectsBuilder.new] using hschema rfl
      · intro offs child h1x h2x
        simp only [encodePhase, GetObjectsBuilder.new, ListArr.ofOffsets.injEq] at h1x
        obtain ⟨ho, hc⟩ := h1x
        subst hc
        simp only [ListArr.ofOffsets.injEq] at h2x
        obtain ⟨ho2, hc2⟩ := h2x
        subst ho2; subst hc2
        simpa using htable
      · intro offs2 c2 offs child h1x h2x h3x
        simp only [encodePhase, GetObjectsBuilder.new, ListArr.ofOffsets.injEq] at h1x
        obtain ⟨ho, hc⟩ := h1x
        subst hc
        simp only [ListArr.ofOffsets.injEq] at h2x
        obtain ⟨ho2, hc2⟩ := h2x
        subst hc2
        simp at h3x
  | columns =>
      rw [GetObjectsBuilder.build, fetchPhase_eq_columns exec dbf tnf cf .columns rfl rfl rfl]
      refine ⟨?_, ?_, ?_⟩ <;> intro offs1 c1
      · intro h
        simp only [encodePhase, ListArr.ofOffsets.injEq] at h
        obtain ⟨ho, hc⟩ := h
        subst ho; subst hc
        simpa using hschema rfl
      · intro offs child h1x h2x
        simp only [encodePhase, ListArr.ofOffsets.injEq] at h1x
        obtain ⟨ho, hc⟩ := h1x
        subst hc
        simp only [ListArr.ofOffsets.injEq] at h2x
        obtain ⟨ho2, hc2⟩ := h2x
        subst ho2; subst hc2
        simpa using htable
      · intro offs2 c2 offs child h1x h2x h3x
        simp only [encodePhase, ListArr.ofOffsets.injEq] at h1x
        obtain ⟨ho, hc⟩ := h1x
        subst hc
        simp only [ListArr.ofOffsets.injEq] at h2x
        obtain ⟨ho2, hc2⟩ := h2x
        subst hc2
        simp only [ListArr.ofOffsets.injEq, mkColumnsStruct] at h3x
        obtain ⟨ho3, hc3⟩ := h3x
        subst ho3; subst hc3
        simpa using hcol
  | all =>
      rw [GetObjectsBuilder.build, fetchPhase_eq_columns exec dbf tnf cf .all rfl rfl rfl]
      refine ⟨?_, ?_, ?_⟩ <;> intro offs1 c1
      · intro h
        simp only [encodePhase, ListArr.ofOffsets.injEq] at h
        obtain ⟨ho, hc⟩ := h
        subst ho; subst hc
        simpa using hschema rfl
      · intro offs child h1x h2x
        simp only [encodePhase, ListArr.ofOffsets.injEq] at h1x
        obtain ⟨ho, hc⟩ := h1x
        subst hc
        simp only [ListArr.ofOffsets.injEq] at h2x
        obtain ⟨ho2, hc2⟩ := h2x
        subst ho2; subst hc2
        simpa using htable
      · intro offs2 c2 offs child h1x h2x h3x
        simp only [encodePhase, ListArr.ofOffsets.injEq] at h1x
        obtain ⟨ho, hc⟩ := h1x
        subst hc
        simp only [ListArr.ofOffsets.injEq] at h2x
        obtain ⟨ho2, hc2⟩ := h2x
        subst hc2
        simp only [ListArr.ofOffsets.injEq, mkColumnsStruct] at h3x
        obtain ⟨ho3, hc3⟩ := h3x
        subst ho3; subst hc3
        simpa using hcol

/-- Witness for C1 at a concrete executor: the hypotheses hold and the
schema-level offset buffer `[0, 1]` is well-formed for one parent and one
child row. -/
theorem C1_offset_buffers_wellformed_witness :
    ((execSample.fetchSchemas "%").length : Int) < 2 ^ 31 ∧
    ((tableCountsOf execSample "%" (execSample.fetchSchemas "%")).sum : Int) < 2 ^ 31 ∧
    ((colCountsOf execSample "%" "%" (execSample.fetchSchemas "%")).sum : Int) < 2 ^ 31 ∧
    wellFormedOffsets [0, 1] 1 1 := by
  refine ⟨by decide, by decide, by decide, ?_⟩
  have h := C1_offset_buffers_wellformed execSample none none none ObjectDepth.schemas
    ((GetObjectsBuilder.new none none none).build execSample ObjectDepth.schemas) rfl
    (by decide) (by decide) (by decide)
  exact h.1 [0, 1] ⟨["s1"], ListArr.nullList 1⟩ (by decide)

theorem wrap32_zero : wrap32 0 = 0 := by
  have : wrap32 0 = wrap32 0 := rfl
  unfold wrap32
  rw [Int.emod_eq_of_lt (by norm_num) (by norm_num)]
  norm_num

theorem offsAcc_mem_range (p : Int) (c : List Nat) (x : Int) (hx : x ∈ offsAcc p c) :
    -2 ^ 31 ≤ x ∧ x < 2 ^ 31 := by
  induction c generalizing p with
  | nil => simp [offsAcc] at hx
  | cons n r ih =>
      simp only [offsAcc, List.mem_cons] at hx
      rcases hx with h | h
      · subst h
        exact ⟨wrap32_nonneg_lb _, wrap32_lt_ub _⟩
      · exact ih _ h

theorem zero_cons_offsAcc_range (c : List Nat) (i : Nat) (x : Int)
    (hx : getElem? (0 :: offsAcc 0 c) i = some x) : -2 ^ 31 ≤ x ∧ x < 2 ^ 31 := by
  have hmem : x ∈ (0 :: offsAcc 0 c) := by
    rcases List.getElem?_eq_some_iff.mp hx with ⟨h1, h2⟩
    exact h2 ▸ List.getElem_mem h1
  rcases List.mem_cons.mp hmem with h | h
  · subst h; norm_num
  · exact offsAcc_mem_range 0 c x h

theorem offsAcc_succ (p : Int) (c : List Nat) (i n : Nat) (hc : getElem? c i = some n) :
    getElem? (p :: offsAcc p c) (i + 1) =
      (getElem? (p :: offsAcc p c) i).map (fun x => wrap32 (x + wrap32 (n : Int))) := by
  induction c generalizing p i with
  | nil => simp at hc
  | cons m r ih =>
      cases i with
      | zero =>
          simp only [List.getElem?_cons_zero, Option.some.injEq] at hc
          subst hc
          simp [offsAcc]
      | succ i =>
          simp only [List.getElem?_cons_succ] at hc
          have := ih (wrap32 (p + wrap32 (m : Int))) i hc
          simpa [offsAcc, List.getElem?_cons_succ] using this

theorem offs_adjacent_of_zero (c : List Nat) (i : Nat) (h : getElem? c i = some 0) :
    getElem? (0 :: offsAcc 0 c) (i + 1) = getElem? (0 :: offsAcc 0 c) i := by
  rw [offsAcc_succ 0 c i 0 h]
  cases hx : getElem? (0 :: offsAcc 0 c) i with
  | none => rfl
  | some x =>
      have hr := zero_cons_offsAcc_range c i x hx
      simp only [Option.map_some', Nat.cast_zero, wrap32_zero, add_zero]
      rw [wrap32_eq_self x hr.1 hr.2]

theorem colCountsOf_eq_map_parents (exec : Executor) (tf cf : String)
    (ss : List SchemaRowM) :
    colCountsOf exec tf cf ss =
      (tableParentsOf exec tf ss).map (fun pr => (exec.fetchColumns pr.1 pr.2 cf).length) := by
  simp [colCountsOf, colCountsOfSchema, tableParentsOf, List.map_flatten,
    List.map_map, Function.comp_def]

/-- Executor returning zero rows at every level. -/
def execEmpty : Executor where
  fetchSchemas := fun _ => []
  fetchTables := fun _ _ => []
  fetchColumns := fun _ _ _ => []

/-- C2: the record distinguishes null-list from empty-list.  A level that was
fetched but returned zero rows for a parent is encoded as an empty sublist
(consecutive equal offsets, `[0, 0]` for the sole catalog parent), while a
level not required by the depth is encoded as a null-list array whose length
equals the parent row count. -/
theorem C2_null_vs_empty (exec : Executor) (dbf tnf cf : Option String)
    (depth : ObjectDepth) (r : GetObjectsRecord)
    (hr : r = (GetObjectsBuilder.new dbf tnf cf).build exec depth) :
    (is_schema_required depth = true → exec.fetchSchemas (dbf.getD "%") = [] →
      ∃ child, r.catalog_db_schemas = ListArr.ofOffsets [0, 0] child) ∧
    (∀ offs1 c1 offs child, r.catalog_db_schemas = ListArr.ofOffsets offs1 c1 →
      c1.db_schema_tables = ListArr.ofOffsets offs child →
      ∀ i s, getElem? (exec.fetchSchemas (dbf.getD "%")) i = some s →
        exec.fetchTables s.name (tnf.getD "%") = [] →
        getElem? offs (i + 1) = getElem? offs i) ∧
    (∀ offs1 c1 offs2 c2 offs child, r.catalog_db_schemas = ListArr.ofOffsets offs1 c1 →
      c1.db_schema_tables = ListArr.ofOffsets offs2 c2 →
      c2.table_columns = ListArr.ofOffsets offs child →
      ∀ i sn tn,
        getElem? (tableParentsOf exec (tnf.getD "%") (exec.fetchSchemas (dbf.getD "%"))) i = some (sn, tn) →
        exec.fetchColumns sn tn (cf.getD "%") = [] →
        getElem? offs (i + 1) = getElem? offs i) ∧
    (depth = ObjectDepth.catalogs →
      r.catalog_db_schemas = ListArr.nullList r.catalog_name.length) ∧
    (depth = ObjectDepth.schemas → ∀ offs1 c1,
      r.catalog_db_schemas = ListArr.ofOffsets offs1 c1 →
      c1.db_schema_tables = ListArr.nullList c1.db_schema_name.length) ∧
    (depth = ObjectDepth.tables → ∀ offs1 c1 offs2 c2,
      r.catalog_db_schemas = ListArr.ofOffsets offs1 c1 →
      c1.db_schema_tables = ListArr.ofOffsets offs2 c2 →
      c2.table_columns = ListArr.nullList c2.table_name.length) := by
  subst hr
  cases depth with
  | catalogs =>
      rw [GetObjectsBuilder.build, fetchPhase_eq_noSchemas exec dbf tnf cf .catalogs rfl]
      refine ⟨by simp [is_schema_required], ?_, ?_, ?_, by simp, by simp⟩
      · intro offs1 c1 offs child h1x
        simp [encodePhase, GetObjectsBuilder.new] at h1x
      · intro offs1 c1 offs2 c2 offs child h1x
        simp [encodePhase, GetObjectsBuilder.new] at h1x
      · intro _
        simp [encodePhase, GetObjectsBuilder.new]
  | schemas =>
      rw [GetObjectsBuilder.build, fetchPhase_eq_schemasOnly exec dbf tnf cf .schemas rfl rfl]
      refine ⟨?_, ?_, ?_, by simp, ?_, by simp⟩
      · intro _ hempty
        refine ⟨⟨[], ListArr.nullList 0⟩, ?_⟩
        simp [encodePhase, GetObjectsBuilder.new, hempty, wrap32_zero, offsAcc, tableCountsOf, tableNamesOf, colCountsOf, colNamesOf, colTypesOf, mkColumnsStruct]
      · intro offs1 c1 offs child h1x h2x
        simp only [encodePhase, GetObjectsBuilder.new, ListArr.ofOffsets.injEq] at h1x
        obtain ⟨ho, hc⟩ := h1x
        subst hc
        simp at h2x
      · intro offs1 c1 offs2 c2 offs child h1x h2x
        simp only [encodePhase, GetObjectsBuilder.new, ListArr.ofOffsets.injEq] at h1x
        obtain ⟨ho, hc⟩ := h1x
        subst hc
        simp at h2x
      · intro _ offs1 c1 h1x
        simp only [encodePhase, GetObjectsBuilder.new, ListArr.ofOffsets.injEq] at h1x
        obtain ⟨ho, hc⟩ := h1x
        subst hc
        simp
  | tables =>
      rw [GetObjectsBuilder.build, fetchPhase_eq_tables exec dbf tnf cf .tables rfl rfl rfl]
      refine ⟨?_, ?_, ?_, by simp, by simp, ?_⟩
      · intro _ hempty
        refine ⟨⟨[], ListArr.ofOffsets [0] ⟨[], [], ListArr.nullList 0, ListArr.nullList 0⟩⟩, ?_⟩
        simp [encodePhase, GetObjectsBuilder.new, hempty, wrap32_zero, offsAcc, tableCountsOf, tableNamesOf, colCountsOf, colNamesOf, colTypesOf, mkColumnsStruct]
      · intro offs1 c1 offs child h1x h2x i s hs hempty
        simp only [encodePhase, GetObjectsBuilder.new, ListArr.ofOffsets.injEq] at h1x
        obtain ⟨ho, hc⟩ := h1x
        subst hc
        simp only [ListArr.ofOffsets.injEq] at h2x
        obtain ⟨ho2, hc2⟩ := h2x
        subst ho2
        have hcount : getElem? (tableCountsOf exec (tnf.getD "%") (exec.fetchSchemas (dbf.getD "%"))) i = some 0 := by
          simp [tableCountsOf, List.getElem?_map, hs, hempty]
        simpa using offs_adjacent_of_zero _ i hcount
      · intro offs1 c1 offs2 c2 offs child h1x h2x h3x
        simp only [encodePhase, GetObjectsBuilder.new, ListArr.ofOffsets.injEq] at h1x
        obtain ⟨ho, hc⟩ := h1x
        subst hc
        simp only [ListArr.ofOffsets.injEq] at h2x
        obtain ⟨ho2, hc2⟩ := h2x
        subst hc2
        simp at h3x
      · intro _ offs1 c1 offs2 c2 h1x h2x
        simp only [encodePhase, GetObjectsBuilder.new, ListArr.ofOffsets.injEq] at h1x
        obtain ⟨ho, hc⟩ := h1x
        subst hc
        simp only [ListArr.ofOffsets.injEq] at h2x
        obtain ⟨ho2, hc2⟩ := h2x
        subst hc2
        simp
  | columns =>
      rw [GetObjectsBuilder.build, fetchPhase_eq_columns exec dbf tnf cf .columns rfl rfl rfl]
      refine ⟨?_, ?_, ?_, by simp, by simp, by simp⟩
      · intro _ hempty
        refine ⟨⟨[], ListArr.ofOffsets [0] ⟨[], [], ListArr.ofOffsets [0] (mkColumnsStruct [] []), ListArr.nullList 0⟩⟩, ?_⟩
        simp [encodePhase, GetObjectsBuilder.new, hempty, wrap32_zero, offsAcc, tableCountsOf, tableNamesOf, colCountsOf, colNamesOf, colTypesOf, mkColumnsStruct]
      · intro offs1 c1 offs child h1x h2x i s hs hempty
        simp only [encodePhase, ListArr.ofOffsets.injEq] at h1x
        obtain ⟨ho, hc⟩ := h1x
        subst hc
        simp only [ListArr.ofOffsets.injEq] at h2x
        obtain ⟨ho2, hc2⟩ := h2x
        subst ho2
        have hcount : getElem? (tableCountsOf exec (tnf.getD "%") (exec.fetchSchemas (dbf.getD "%"))) i = some 0 := by
          simp [tableCountsOf, List.getElem?_map, hs, hempty]
        simpa using offs_adjacent_of_zero _ i hcount
      · intro offs1 c1 offs2 c2 offs child h1x h2x h3x i sn tn hp hempty
        simp only [encodePhase, ListArr.ofOffsets.injEq] at h1x
        obtain ⟨ho, hc⟩ := h1x
        subst hc
        simp only [ListArr.ofOffsets.injEq] at h2x
        obtain ⟨ho2, hc2⟩ := h2x
        subst hc2
        simp only [ListArr.ofOffsets.injEq, mkColumnsStruct] at h3x
        obtain ⟨ho3, hc3⟩ := h3x
        subst ho3
        have hcount : getElem? (colCountsOf exec (tnf.getD "%") (cf.getD "%") (exec.fetchSchemas (dbf.getD "%"))) i = some 0 := by
          rw [colCountsOf_eq_map_parents]
          simp [List.getElem?_map, hp, hempty]
        simpa using offs_adjacent_of_zero _ i hcount
  | all =>
      rw [GetObjectsBuilder.build, fetchPhase_eq_columns exec dbf tnf cf .all rfl rfl rfl]
      refine ⟨?_, ?_, ?_, by simp, by simp, by simp⟩
      · intro _ hempty
        refine ⟨⟨[], ListArr.ofOffsets [0] ⟨[], [], ListArr.ofOffsets [0] (mkColumnsStruct [] []), ListArr.nullList 0⟩⟩, ?_⟩
        simp [encodePhase, GetObjectsBuilder.new, hempty, wrap32_zero, offsAcc, tableCountsOf, tableNamesOf, colCountsOf, colNamesOf, colTypesOf, mkColumnsStruct]
      · intro offs1 c1 offs child h1x h2x i s hs hempty
        simp only [encodePhase, ListArr.ofOffsets.injEq] at h1x
        obtain ⟨ho, hc⟩ := h1x
        subst hc
        simp only [ListArr.ofOffsets.injEq] at h2x
        obtain ⟨ho2, hc2⟩ := h2x
        subst ho2
        have hcount : getElem? (tableCountsOf exec (tnf.getD "%") (exec.fetchSchemas (dbf.getD "%"))) i = some 0 := by
          simp [tableCountsOf, List.getElem?_map, hs, hempty]
        simpa using offs_adjacent_of_zero _ i hcount
      · intro offs1 c1 offs2 c2 offs child h1x h2x h3x i sn tn hp hempty
        simp only [encodePhase, ListArr.ofOffsets.injEq] at h1x
        obtain ⟨ho, hc⟩ := h1x
        subst hc
        simp only [ListArr.ofOffsets.injEq] at h2x
        obtain ⟨ho2, hc2⟩ := h2x
        subst hc2
        simp only [ListArr.ofOffsets.injEq, mkColumnsStruct] at h3x
        obtain ⟨ho3, hc3⟩ := h3x
        subst ho3
        have hcount : getElem? (colCountsOf exec (tnf.getD "%") (cf.getD "%") (exec.fetchSchemas (dbf.getD "%"))) i = some 0 := by
          rw [colCountsOf_eq_map_parents]
          simp [List.getElem?_map, hp, hempty]
        simpa using offs_adjacent_of_zero _ i hcount

/-- Witness for C2 at a concrete executor returning zero rows: at depth
Schemas with an empty schema fetch the catalog level is an offset-built list
with offsets `[0, 0]`, not a null list. -/
theorem C2_null_vs_empty_witness :
    ∃ child,
      ((GetObjectsBuilder.new none none none).build execEmpty ObjectDepth.schemas).catalog_db_schemas
        = ListArr.ofOffsets [0, 0] child :=
  (C2_null_vs_empty execEmpty none none none ObjectDepth.schemas _ rfl).1 rfl rfl

/-- Spec-side transformation for depth-monotonicity (spec §8): replace every
list field at nesting levels deeper than `lvl` with a null-list sized to its
parent's row count, leaving all other content unchanged. -/
def nullifyBelow (lvl : Nat) (r : GetObjectsRecord) : GetObjectsRecord :=
  match lvl with
  | 0 => { r with catalog_db_schemas := ListArr.nullList r.catalog_name.length }
  | 1 =>
      { r with catalog_db_schemas :=
          match r.catalog_db_schemas with
          | .ofOffsets o c =>
              .ofOffsets o { c with db_schema_tables := ListArr.nullList c.db_schema_name.length }
          | .nullList n => .nullList n }
  | 2 =>
      { r with catalog_db_schemas :=
          match r.catalog_db_schemas with
          | .ofOffsets o c =>
              .ofOffsets o
                { c with db_schema_tables :=
                    match c.db_schema_tables with
                    | .ofOffsets o2 t =>
                        .ofOffsets o2
                          { t with table_columns := ListArr.nullList t.table_name.length }
                    | .nullList n => .nullList n }
          | .nullList n => .nullList n }
  | _ => r

/-- C3: for depths D1 < D2 with the same filters and executor, the record
built at D1 equals the record built at D2 after replacing every list field
at levels deeper than D1 with a null-list sized to its parent count. -/
theorem C3_depth_monotonic (exec : Executor) (dbf tnf cf : Option String)
    (d1 d2 : ObjectDepth) (h : depthLevel d1 < depthLevel d2) :
    (GetObjectsBuilder.new dbf tnf cf).build exec d1 =
      nullifyBelow (depthLevel d1) ((GetObjectsBuilder.new dbf tnf cf).build exec d2) := by
  cases d1 with
  | catalogs =>
      rw [GetObjectsBuilder.build, GetObjectsBuilder.build,
        fetchPhase_eq_noSchemas exec dbf tnf cf .catalogs rfl]
      cases d2 with
      | catalogs => exact absurd h (by decide)
      | schemas =>
          rw [fetchPhase_eq_schemasOnly exec dbf tnf cf .schemas rfl rfl]
          simp [encodePhase, nullifyBelow, depthLevel, GetObjectsBuilder.new]
      | tables =>
          rw [fetchPhase_eq_tables exec dbf tnf cf .tables rfl rfl rfl]
          simp [encodePhase, nullifyBelow, depthLevel, GetObjectsBuilder.new]
      | columns =>
          rw [fetchPhase_eq_columns exec dbf tnf cf .columns rfl rfl rfl]
          simp [encodePhase, nullifyBelow, depthLevel, GetObjectsBuilder.new]
      | all =>
          rw [fetchPhase_eq_columns exec dbf tnf cf .all rfl rfl rfl]
          simp [encodePhase, nullifyBelow, depthLevel, GetObjectsBuilder.new]
  | schemas =>
      rw [GetObjectsBuilder.build, GetObjectsBuilder.build,
        fetchPhase_eq_schemasOnly exec dbf tnf cf .schemas rfl rfl]
      cases d2 with
      | catalogs => exact absurd h (by decide)
      | schemas => exact absurd h (by decide)
      | tables =>
          rw [fetchPhase_eq_tables exec dbf tnf cf .tables rfl rfl rfl]
          simp [encodePhase, nullifyBelow, depthLevel, GetObjectsBuilder.new]
      | columns =>
          rw [fetchPhase_eq_columns exec dbf tnf cf .columns rfl rfl rfl]
          simp [encodePhase, nullifyBelow, depthLevel, GetObjectsBuilder.new]
      | all =>
          rw [fetchPhase_eq_columns exec dbf tnf cf .all rfl rfl rfl]
          simp [encodePhase, nullifyBelow, depthLevel, GetObjectsBuilder.new]
  | tables =>
      rw [GetObjectsBuilder.build, GetObjectsBuilder.build,
        fetchPhase_eq_tables exec dbf tnf cf .tables rfl rfl rfl]
      cases d2 with
      | catalogs => exact absurd h (by decide)
      | schemas => exact absurd h (by decide)
      | tables => exact absurd h (by decide)
      | columns =>
          rw [fetchPhase_eq_columns exec dbf tnf cf .columns rfl rfl rfl]
          simp [encodePhase, nullifyBelow, depthLevel, GetObjectsBuilder.new]
      | all =>
          rw [fetchPhase_eq_columns exec dbf tnf cf .all rfl rfl rfl]
          simp [encodePhase, nullifyBelow, depthLevel, GetObjectsBuilder.new]
  | columns => exact absurd h (by cases d2 <;> decide)
  | all => exact absurd h (by cases d2 <;> decide)

/-- Witness for C3 at the sample executor and the depth pair
Schemas < Tables. -/
theorem C3_depth_monotonic_witness :
    depthLevel ObjectDepth.schemas < depthLevel ObjectDepth.tables ∧
      (GetObjectsBuilder.new none none none).build execSample ObjectDepth.schemas =
        nullifyBelow 1 ((GetObjectsBuilder.new none none none).build execSample ObjectDepth.tables) :=
  ⟨by decide,
    C3_depth_monotonic execSample none none none ObjectDepth.schemas ObjectDepth.tables (by decide)⟩

/-- The flattened table struct array of a record, when the tables level is
materialized. -/
def tablesStructOf (r : GetObjectsRecord) : Option TablesStructArray :=
  match r.catalog_db_schemas with
  | .ofOffsets _ c =>
      match c.db_schema_tables with
      | .ofOffsets _ t => some t
      | .nullList _ => none
  | .nullList _ => none

/-- The flattened column struct array of a record, when the columns level is
materialized. -/
def columnsStructOf (r : GetObjectsRecord) : Option ColumnsStructArray :=
  match tablesStructOf r with
  | some t =>
      match t.table_columns with
      | .ofOffsets _ cs => some cs
      | .nullList _ => none
  | none => none

theorem encodePhase_catalog_name (b : GetObjectsBuilder) (depth : ObjectDepth) :
    (encodePhase b depth).catalog_name = b.catalog_names := by
  cases depth <;> rfl

theorem fetchPhase_catalog_names (exec : Executor) (depth : ObjectDepth)
    (b : GetObjectsBuilder) :
    (fetchPhase exec depth b).catalog_names = b.catalog_names ++ ["default"] := by
  unfold fetchPhase
  by_cases hs : is_schema_required depth = true
  · simp only [hs, if_true]
    by_cases ht : is_table_required depth = true
    · simp only [ht, if_true]
      by_cases hc : is_column_required depth = true
      · rw [schemasFold_eq_true exec depth hc]
      · rw [schemasFold_eq_false exec depth (by simpa using hc)]
    · simp [ht]
  · simp [hs]

/-- C10: the record produced by `get_objects` always contains exactly the one
catalog row `"default"`, and the caller-supplied catalog filter never changes
the result (it is dropped by `ClickhouseConnection::get_objects`). -/
theorem C10_single_default_catalog (exec : Executor) (depth : ObjectDepth)
    (cat1 cat2 : Option String) (dbf tnf : Option String)
    (ttf : Option (List String)) (cf : Option String) :
    (connectionGetObjects exec depth cat1 dbf tnf ttf cf).catalog_name = ["default"] ∧
    connectionGetObjects exec depth cat1 dbf tnf ttf cf =
      connectionGetObjects exec depth cat2 dbf tnf ttf cf := by
  refine ⟨?_, rfl⟩
  show (encodePhase (fetchPhase exec depth (GetObjectsBuilder.new dbf tnf cf)) depth).catalog_name = ["default"]
  rw [encodePhase_catalog_name, fetchPhase_catalog_names]
  rfl

/-- C4 counterexample: with depth Columns and table-type filter
`["BASE TABLE"]`, a table whose backend type is `VIEW` (per the executor
oracle) still appears in the produced record. -/
theorem C4_counterexample :
    (tablesStructOf (connectionGetObjects execSample ObjectDepth.columns none none none
        (some ["BASE TABLE"]) none)).map (·.table_name) = some ["v1"] ∧
    execSample.fetchTables "s1" "%" = [⟨"v1", "VIEW"⟩] := by
  exact ⟨by decide, by decide⟩

/-- C4 amended: `get_objects` drops the table-type filter entirely: the
produced record is identical for any two filter values, and every table's
reported `table_type` is the hardcoded `"default"`. -/
theorem C4_amended_table_type_filter_dropped (exec : Executor) (depth : ObjectDepth)
    (cat dbf tnf cf : Option String) (ttf1 ttf2 : Option (List String)) :
    connectionGetObjects exec depth cat dbf tnf ttf1 cf =
      connectionGetObjects exec depth cat dbf tnf ttf2 cf ∧
    (∀ t, tablesStructOf (connectionGetObjects exec depth cat dbf tnf ttf1 cf) = some t →
      t.table_type = List.replicate t.table_name.length "default") := by
  refine ⟨rfl, ?_⟩
  intro t ht
  rw [connectionGetObjects, GetObjectsBuilder.build] at ht
  cases depth with
  | catalogs =>
      rw [fetchPhase_eq_noSchemas exec dbf tnf cf .catalogs rfl] at ht
      simp [tablesStructOf, encodePhase, GetObjectsBuilder.new] at ht
  | schemas =>
      rw [fetchPhase_eq_schemasOnly exec dbf tnf cf .schemas rfl rfl] at ht
      simp [tablesStructOf, encodePhase, GetObjectsBuilder.new] at ht
  | tables =>
      rw [fetchPhase_eq_tables exec dbf tnf cf .tables rfl rfl rfl] at ht
      simp only [tablesStructOf, encodePhase, Option.some.injEq] at ht
      subst ht
      simp [tableNamesOf_length]
  | columns =>
      rw [fetchPhase_eq_columns exec dbf tnf cf .columns rfl rfl rfl] at ht
      simp only [tablesStructOf, encodePhase, Option.some.injEq] at ht
      subst ht
      simp [tableNamesOf_length]
  | all =>
      rw [fetchPhase_eq_columns exec dbf tnf cf .all rfl rfl rfl] at ht
      simp only [tablesStructOf, encodePhase, Option.some.injEq] at ht
      subst ht
      simp [tableNamesOf_length]

/-- Witness for the amended C4 at the sample executor: the VIEW-typed table
appears with the reported type `"default"`. -/
theorem C4_amended_table_type_filter_dropped_witness :
    ∃ t, tablesStructOf (connectionGetObjects execSample ObjectDepth.columns none none none
        (some ["BASE TABLE"]) none) = some t ∧
      t.table_type = List.replicate t.table_name.length "default" := by
  have ht : tablesStructOf (connectionGetObjects execSample ObjectDepth.columns none none none
      (some ["BASE TABLE"]) none) = some
        ⟨["v1"], ["default"],
          ListArr.ofOffsets [0, 1] (mkColumnsStruct ["c1"] ["Int32"]), ListArr.nullList 1⟩ := by
    decide
  exact ⟨_, ht,
    (C4_amended_table_type_filter_dropped execSample ObjectDepth.columns none none none none
      (some ["BASE TABLE"]) none).2 _ ht⟩

/-- C9 counterexample: at depth Columns the sole column row exists (name
`c1`) but its `xdbc_nullable` field is null, not an int16 0/1 encoding of
the backend's nullability. -/
theorem C9_counterexample :
    (columnsStructOf (connectionGetObjects execSample ObjectDepth.columns none none none none
        none)).map (·.column_name) = some ["c1"] ∧
    (columnsStructOf (connectionGetObjects execSample ObjectDepth.columns none none none none
        none)).map (·.xdbc_nullable) = some [none] := by
  exact ⟨by decide, by decide⟩

/-- C9 amended: in every record built at depth Columns or All, the
`xdbc_nullable` array is entirely null — the backend's reported nullability
is never propagated. -/
theorem C9_amended_xdbc_nullable_always_null (exec : Executor) (depth : ObjectDepth)
    (cat dbf tnf cf : Option String) (ttf : Option (List String))
    (hd : depth = ObjectDepth.columns ∨ depth = ObjectDepth.all) :
    ∀ cs, columnsStructOf (connectionGetObjects exec depth cat dbf tnf ttf cf) = some cs →
      cs.xdbc_nullable = List.replicate cs.column_name.length none := by
  intro cs hcs
  rw [connectionGetObjects, GetObjectsBuilder.build] at hcs
  rcases hd with hd | hd
  · subst hd
    rw [fetchPhase_eq_columns exec dbf tnf cf .columns rfl rfl rfl] at hcs
    simp only [columnsStructOf, tablesStructOf, encodePhase, Option.some.injEq] at hcs
    subst hcs
    simp [mkColumnsStruct]
  · subst hd
    rw [fetchPhase_eq_columns exec dbf tnf cf .all rfl rfl rfl] at hcs
    simp only [columnsStructOf, tablesStructOf, encodePhase, Option.some.injEq] at hcs
    subst hcs
    simp [mkColumnsStruct]

/-- Witness for the amended C9 at the sample executor. -/
theorem C9_amended_xdbc_nullable_always_null_witness :
    ∃ cs, columnsStructOf (connectionGetObjects execSample ObjectDepth.columns none none none
        none none) = some cs ∧
      cs.xdbc_nullable = List.replicate cs.column_name.length none := by
  have hcs : columnsStructOf (connectionGetObjects execSample ObjectDepth.columns none none none
      none none) = some (mkColumnsStruct ["c1"] ["Int32"]) := by decide
  exact ⟨_, hcs,
    C9_amended_xdbc_nullable_always_null execSample ObjectDepth.columns none none none none
      none (Or.inl rfl) _ hcs⟩

/-! ### SQL generation for the metadata helpers (src/utils.rs) -/

/-- `FETCH_MIN_SCHEMA_BASE_SQL` (src/utils.rs lines 124-128). -/
def FETCH_MIN_SCHEMA_BASE_SQL : String :=
  "SELECT\n\ts.catalog_name,\n\ts.schema_name\nFROM\n\tINFORMATION_SCHEMA.SCHEMATA s"

/-- `NativeClientExt::fetch_min_schemas` SQL and parameter generation
(src/utils.rs lines 160-199): each present filter appends one LIKE predicate
and one named parameter; with no predicates the base SQL is sent with no
parameter list at all. -/
def fetch_min_schemas_sql (catalog_filter schema_filter : Option String) :
    String × Option (List (String × String)) :=
  let pred : List String := []
  let params : List (String × String) := []
  let (pred, params) :=
    match catalog_filter with
    | some catalog_filter =>
        (pred ++ ["s.catalog_name LIKE \x7bcatalog_filter:String\x7d"],
         params ++ [("catalog_filter", catalog_filter)])
    | none => (pred, params)
  let (pred, params) :=
    match schema_filter with
    | some schema_filter =>
        (pred ++ ["s.schema_name LIKE \x7bschema_filter:String\x7d"],
         params ++ [("schema_filter", schema_filter)])
    | none => (pred, params)
  if !pred.isEmpty then
    (FETCH_MIN_SCHEMA_BASE_SQL ++ "\nWHERE " ++ String.intercalate " AND " pred, some params)
  else
    (FETCH_MIN_SCHEMA_BASE_SQL, none)

/-- C5 counterexample: `GetObjectsBuilder::new` replaces every absent filter
by the `%` wildcard pattern (these defaulted patterns are what the
get_objects fetches receive), contradicting "omitted entirely ... rather
than being replaced by a wildcard pattern". -/
theorem C5_counterexample :
    (GetObjectsBuilder.new none none none).db_schema = "%" ∧
    (GetObjectsBuilder.new none none none).table_name = "%" ∧
    (GetObjectsBuilder.new none none none).column_name = "%" :=
  ⟨rfl, rfl, rfl⟩

/-- C5 amended: the unused `fetch_min_schemas` helper does omit the LIKE
predicate and its bound parameter for every absent filter (no wildcard
default), but `GetObjectsBuilder::new` — the get_objects path — substitutes
the `%` wildcard for each absent filter. -/
theorem C5_amended_filter_handling :
    (∀ tnf cf : Option String, (GetObjectsBuilder.new none tnf cf).db_schema = "%") ∧
    (∀ dbf cf : Option String, (GetObjectsBuilder.new dbf none cf).table_name = "%") ∧
    (∀ dbf tnf : Option String, (GetObjectsBuilder.new dbf tnf none).column_name = "%") ∧
    fetch_min_schemas_sql none none = (FETCH_MIN_SCHEMA_BASE_SQL, none) ∧
    (∀ c, (fetch_min_schemas_sql (some c) none).1 =
        "SELECT\n\ts.catalog_name,\n\ts.schema_name\nFROM\n\tINFORMATION_SCHEMA.SCHEMATA s\nWHERE s.catalog_name LIKE \x7bcatalog_filter:String\x7d" ∧
      (fetch_min_schemas_sql (some c) none).2 = some [("catalog_filter", c)]) ∧
    (∀ s, (fetch_min_schemas_sql none (some s)).1 =
        "SELECT\n\ts.catalog_name,\n\ts.schema_name\nFROM\n\tINFORMATION_SCHEMA.SCHEMATA s\nWHERE s.schema_name LIKE \x7bschema_filter:String\x7d" ∧
      (fetch_min_schemas_sql none (some s)).2 = some [("schema_filter", s)]) ∧
    (∀ c s, (fetch_min_schemas_sql (some c) (some s)).1 =
        "SELECT\n\ts.catalog_name,\n\ts.schema_name\nFROM\n\tINFORMATION_SCHEMA.SCHEMATA s\nWHERE s.catalog_name LIKE \x7bcatalog_filter:String\x7d AND s.schema_name LIKE \x7bschema_filter:String\x7d" ∧
      (fetch_min_schemas_sql (some c) (some s)).2 =
        some [("catalog_filter", c), ("schema_filter", s)]) := by
  refine ⟨fun _ _ => rfl, fun _ _ => rfl, fun _ _ => rfl, rfl,
    fun c => ⟨rfl, rfl⟩, fun s => ⟨rfl, rfl⟩, fun c s => ⟨rfl, rfl⟩⟩

/-! ### Error mapping (src/utils.rs `from_clickhouse_error`) -/

/-- `clickhouse_arrow::Error` (external crate) as matched by
`from_clickhouse_error`: the transport variant `Io` against every other
variant, each carrying its display text. -/
inductive CHError where
  | ioError (msg : String)
  | otherError (kind : String) (msg : String)
deriving DecidableEq

/-- Display text of an error (the `{}` formatting of the Rust enum). -/
def CHError.display : CHError → String
  | .ioError msg => msg
  | .otherError _ msg => msg

/-- `adbc_core::error::Status` values used by this driver. -/
inductive AdbcStatus where
  | ioStatus
  | internal
  | notFound
  | invalidArguments
  | notImplemented
  | invalidState
deriving DecidableEq

/-- `adbc_core::error::Error` as built by
`Error::with_message_and_status(message, status)`. -/
structure AdbcError where
  message : String
  status : AdbcStatus
deriving DecidableEq

/-- `from_clickhouse_error` (src/utils.rs lines 73-88): `Io` errors map to
status IO, everything else to Internal; both carry
`"[Clickhouse] {context}: {error}"`. -/
def from_clickhouse_error (context : String) (error : CHError) : AdbcError :=
  match error with
  | .ioError _ =>
      { message := "[Clickhouse] " ++ context ++ ": " ++ error.display
        status := .ioStatus }
  | _ =>
      { message := "[Clickhouse] " ++ context ++ ": " ++ error.display
        status := .internal }

/-- C7: `from_clickhouse_error` maps an error to status IO exactly when it is
a transport (`Io`) error and to Internal otherwise, and its message starts
with the fixed driver tag `"[Clickhouse] "` followed by the context. -/
theorem C7_error_mapping (c : String) (e : CHError) :
    ((from_clickhouse_error c e).status = AdbcStatus.ioStatus ↔ ∃ m, e = CHError.ioError m) ∧
    ((from_clickhouse_error c e).status = AdbcStatus.ioStatus ∨
      (from_clickhouse_error c e).status = AdbcStatus.internal) ∧
    (∃ rest, (from_clickhouse_error c e).message = "[Clickhouse] " ++ c ++ rest) := by
  cases e with
  | ioError m =>
      refine ⟨by simp [from_clickhouse_error], Or.inl rfl, ⟨": " ++ m, ?_⟩⟩
      simp only [from_clickhouse_error, CHError.display]
      rw [String.append_assoc]
  | otherError k m =>
      refine ⟨by simp [from_clickhouse_error], Or.inr rfl, ⟨": " ++ m, ?_⟩⟩
      simp only [from_clickhouse_error, CHError.display]
      rw [String.append_assoc]

/-! ### Statement execution (src/statement.rs) -/

/-- State of `ClickhouseStatement` (src/statement.rs lines 15-22), with the
bound batch and reader payloads abstracted as type parameters. -/
structure ClickhouseStatement (β ρ : Type) where
  sql_query : Option String
  bound_record_batch : Option β
  bound_record_batch_reader : Option ρ
  ingest_target_table : Option String
deriving DecidableEq

/-- `ClickhouseStatement::execute` (src/statement.rs lines 115-129), with the
connection's query call modelled as an oracle.  The result triple carries
the returned value, the statement state after the call, and the list of
queries sent to the connection. -/
def ClickhouseStatement.execute {β ρ σ : Type} (st : ClickhouseStatement β ρ)
    (conn : String → Except CHError σ) :
    Except AdbcError σ × ClickhouseStatement β ρ × List String :=
  match st.sql_query with
  | some query =>
      match conn query with
      | .ok response => (.ok response, st, [query])
      | .error err => (.error (from_clickhouse_error "Failed to execute query" err), st, [query])
  | none =>
      (.error { message := "[Clickhouse] SQL query is empty", status := .invalidState },
        st, [])

/-- C8: when no SQL query has been set, `execute` returns an InvalidState
error, sends nothing to the connection, and leaves the statement state
unchanged. -/
theorem C8_execute_invalid_state {β ρ σ : Type} (st : ClickhouseStatement β ρ)
    (conn : String → Except CHError σ) (h : st.sql_query = none) :
    st.execute conn =
      (Except.error { message := "[Clickhouse] SQL query is empty", status := .invalidState },
        st, []) := by
  unfold ClickhouseStatement.execute
  rw [h]

/-- Witness for C8 at a concrete fresh statement. -/
theorem C8_execute_invalid_state_witness :
    (⟨none, none, none, none⟩ : ClickhouseStatement Unit Unit).sql_query = none ∧
    (⟨none, none, none, none⟩ : ClickhouseStatement Unit Unit).execute
        (fun _ => Except.ok ()) =
      (Except.error { message := "[Clickhouse] SQL query is empty", status := .invalidState },
        (⟨none, none, none, none⟩ : ClickhouseStatement Unit Unit), []) :=
  ⟨rfl, C8_execute_invalid_state _ _ rfl⟩

/-! ### Info encoder (src/utils/get_info.rs) -/

/-- State of `GetInfoBuilder` (src/utils/get_info.rs lines 8-20): codes are
`u32` values, type ids `i8`, union offsets `i32`; each variant's array
builder is modelled by its list of appended values. -/
structure GetInfoBuilder where
  name_builder : List Nat
  type_id_vec : List Int
  offsets_vec : List Int
  string_array_builder : List String
  string_offset : Int
  bool_array_builder : List Bool
  int64_array_builder : List Int
  int64_offset : Int
  int32_array_builder : List Int
  list_string_array_builder : List (List String)
  map_builder : List (List (Int × List Int))
deriving DecidableEq

/-- `GetInfoBuilder::new` (src/utils/get_info.rs lines 23-45). -/
def GetInfoBuilder.new : GetInfoBuilder where
  name_builder := []
  type_id_vec := []
  offsets_vec := []
  string_array_builder := []
  string_offset := 0
  bool_array_builder := []
  int64_array_builder := []
  int64_offset := 0
  int32_array_builder := []
  list_string_array_builder := []
  map_builder := []

/-- `GetInfoBuilder::set_string` (src/utils/get_info.rs lines 47-53): append
the code and the string, tag type id 0, record the string variant's running
offset, then bump it. -/
def GetInfoBuilder.set_string (b : GetInfoBuilder) (code : Nat) (s : String) :
    GetInfoBuilder :=
  { b with
    name_builder := b.name_builder ++ [code]
    string_array_builder := b.string_array_builder ++ [s]
    type_id_vec := b.type_id_vec ++ [0]
    offsets_vec := b.offsets_vec ++ [b.string_offset]
    string_offset := wrap32 (b.string_offset + 1) }

/-- `GetInfoBuilder::set_number` (src/utils/get_info.rs lines 55-61): append
the code and the int64, tag type id 2, record the int64 variant's running
offset, then bump it. -/
def GetInfoBuilder.set_number (b : GetInfoBuilder) (code : Nat) (number : Int) :
    GetInfoBuilder :=
  { b with
    name_builder := b.name_builder ++ [code]
    int64_array_builder := b.int64_array_builder ++ [number]
    type_id_vec := b.type_id_vec ++ [2]
    offsets_vec := b.offsets_vec ++ [b.int64_offset]
    int64_offset := wrap32 (b.int64_offset + 1) }

/-- The dense `UnionArray` built by `finish`: a discriminant buffer, a
per-row offset buffer, and, in the order passed to `UnionArray::try_new`
(matching the union type ids 0-5 of the external `GET_INFO_SCHEMA`), the six
variant child arrays. -/
structure InfoUnionArray where
  type_ids : List Int
  offsets : List Int
  stringChild : List String
  boolChild : List Bool
  int64Child : List Int
  int32Child : List Int
  listStringChild : List (List String)
  mapChild : List (List (Int × List Int))
deriving DecidableEq

/-- The record returned by `GetInfoBuilder::finish` (src/utils/get_info.rs
lines 63-91): the `info_name` code column next to the union column. -/
structure GetInfoRecord where
  info_name : List Nat
  info_value : InfoUnionArray
deriving DecidableEq

/-- `GetInfoBuilder::finish` on its success path: package the accumulated
buffers into the record. -/
def GetInfoBuilder.finish (b : GetInfoBuilder) : GetInfoRecord where
  info_name := b.name_builder
  info_value :=
    { type_ids := b.type_id_vec
      offsets := b.offsets_vec
      stringChild := b.string_array_builder
      boolChild := b.bool_array_builder
      int64Child := b.int64_array_builder
      int32Child := b.int32_array_builder
      listStringChild := b.list_string_array_builder
      mapChild := b.map_builder }

/-- A decoded union value of the variants this driver populates. -/
inductive InfoVal where
  | strVal (s : String)
  | int64Val (n : Int)
deriving DecidableEq

/-- Decode row `i` of the union column: the discriminant selects the child
array and the union offset indexes into it (type id 0 = string variant,
type id 2 = int64 variant). -/
def InfoUnionArray.valueAt (u : InfoUnionArray) (i : Nat) : Option InfoVal :=
  match getElem? u.type_ids i with
  | some 0 =>
      match getElem? u.offsets i with
      | some off => (getElem? u.stringChild off.toNat).map InfoVal.strVal
      | none => none
  | some 2 =>
      match getElem? u.offsets i with
      | some off => (getElem? u.int64Child off.toNat).map InfoVal.int64Val
      | none => none
  | _ => none

/-- A call against the builder: `set_string` or `set_number`. -/
inductive InfoCall where
  | setString (code : Nat) (s : String)
  | setNumber (code : Nat) (n : Int)
deriving DecidableEq

def InfoCall.code : InfoCall → Nat
  | .setString c _ => c
  | .setNumber c _ => c

/-- The union type id the call's variant is tagged with. -/
def InfoCall.tid : InfoCall → Int
  | .setString _ _ => 0
  | .setNumber _ _ => 2

def InfoCall.isString : InfoCall → Bool
  | .setString _ _ => true
  | .setNumber _ _ => false

def applyCall (b : GetInfoBuilder) (c : InfoCall) : GetInfoBuilder :=
  match c with
  | .setString code s => b.set_string code s
  | .setNumber code n => b.set_number code n

/-- The builder state after a sequence of calls against a fresh builder. -/
def runCalls (cs : List InfoCall) : GetInfoBuilder :=
  cs.foldl applyCall GetInfoBuilder.new

/-- The string values appended by a call sequence, in order. -/
def strVals (cs : List InfoCall) : List String :=
  cs.filterMap (fun c => match c with | .setString _ s => some s | .setNumber _ _ => none)

/-- The int64 values appended by a call sequence, in order. -/
def intVals (cs : List InfoCall) : List Int :=
  cs.filterMap (fun c => match c with | .setNumber _ n => some n | .setString _ _ => none)

/-- The union offsets recorded for a call sequence, given the two running
per-variant offsets. -/
def offsetsFrom (s0 n0 : Int) : List InfoCall → List Int
  | [] => []
  | .setString _ _ :: r => s0 :: offsetsFrom (wrap32 (s0 + 1)) n0 r
  | .setNumber _ _ :: r => n0 :: offsetsFrom s0 (wrap32 (n0 + 1)) r

/-- `n` wrapped increments applied to `x`. -/
def wrapSucc (x : Int) : Nat → Int
  | 0 => x
  | n + 1 => wrap32 (wrapSucc x n + 1)

theorem wrapSucc_shift (x : Int) (n : Nat) :
    wrapSucc (wrap32 (x + 1)) n = wrapSucc x (n + 1) := by
  induction n with
  | zero => rfl
  | succ n ih => simp only [wrapSucc, ih]

theorem wrapSucc_zero_eq (k : Nat) (h : (k : Int) < 2 ^ 31) : wrapSucc 0 k = (k : Int) := by
  induction k with
  | zero => rfl
  | succ k ih =>
      have hk : (k : Int) < 2 ^ 31 := by push_cast at h ⊢; omega
      have hq : ((k + 1 : Nat) : Int) = (k : Int) + 1 := by push_cast; ring
      simp only [wrapSucc, ih hk, hq]
      exact wrap32_eq_self _ (by omega) (by push_cast at h; omega)

theorem offsetsFrom_get_string (cs : List InfoCall) (s0 n0 : Int) (i : Nat)
    (code : Nat) (s : String) (hc : getElem? cs i = some (InfoCall.setString code s)) :
    getElem? (offsetsFrom s0 n0 cs) i =
      some (wrapSucc s0 ((cs.take i).countP (·.isString))) := by
  induction cs generalizing s0 n0 i with
  | nil => simp at hc
  | cons c r ih =>
      cases i with
      | zero =>
          simp only [List.getElem?_cons_zero, Option.some.injEq] at hc
          subst hc
          simp [offsetsFrom, wrapSucc]
      | succ i =>
          simp only [List.getElem?_cons_succ] at hc
          cases c with
          | setString c0 v0 =>
              have := ih (wrap32 (s0 + 1)) n0 i hc
              simp only [offsetsFrom, List.getElem?_cons_succ, this, wrapSucc_shift,
                List.take_succ_cons, List.countP_cons, InfoCall.isString]
              simp [Nat.add_comm]
          | setNumber c0 v0 =>
              have := ih s0 (wrap32 (n0 + 1)) i hc
              simp only [offsetsFrom, List.getElem?_cons_succ, this,
                List.take_succ_cons, List.countP_cons, InfoCall.isString]
              simp

theorem offsetsFrom_get_number (cs : List InfoCall) (s0 n0 : Int) (i : Nat)
    (code : Nat) (n : Int) (hc : getElem? cs i = some (InfoCall.setNumber code n)) :
    getElem? (offsetsFrom s0 n0 cs) i =
      some (wrapSucc n0 ((cs.take i).countP (fun c => !c.isString))) := by
  induction cs generalizing s0 n0 i with
  | nil => simp at hc
  | cons c r ih =>
      cases i with
      | zero =>
          simp only [List.getElem?_cons_zero, Option.some.injEq] at hc
          subst hc
          simp [offsetsFrom, wrapSucc]
      | succ i =>
          simp only [List.getElem?_cons_succ] at hc
          cases c with
          | setString c0 v0 =>
              have := ih (wrap32 (s0 + 1)) n0 i hc
              simp only [offsetsFrom, List.getElem?_cons_succ, this,
                List.take_succ_cons, List.countP_cons, InfoCall.isString]
              simp
          | setNumber c0 v0 =>
              have := ih s0 (wrap32 (n0 + 1)) i hc
              simp only [offsetsFrom, List.getElem?_cons_succ, this, wrapSucc_shift,
                List.take_succ_cons, List.countP_cons, InfoCall.isString]
              simp [Nat.add_comm]

theorem strVals_get (cs : List InfoCall) (i : Nat) (code : Nat) (s : String)
    (hc : getElem? cs i = some (InfoCall.setString code s)) :
    getElem? (strVals cs) ((cs.take i).countP (·.isString)) = some s := by
  induction cs generalizing i with
  | nil => simp at hc
  | cons c r ih =>
      cases i with
      | zero =>
          simp only [List.getElem?_cons_zero, Option.some.injEq] at hc
          subst hc
          simp [strVals]
      | succ i =>
          simp only [List.getElem?_cons_succ] at hc
          cases c with
          | setString c0 v0 =>
              simp only [strVals, List.filterMap_cons, List.take_succ_cons,
                List.countP_cons, InfoCall.isString, if_true, ite_true]
              rw [List.getElem?_cons_succ]
              exact ih i hc
          | setNumber c0 v0 =>
              simp only [strVals, List.filterMap_cons, List.take_succ_cons,
                List.countP_cons, InfoCall.isString]
              simpa [strVals] using ih i hc

theorem intVals_get (cs : List InfoCall) (i : Nat) (code : Nat) (n : Int)
    (hc : getElem? cs i = some (InfoCall.setNumber code n)) :
    getElem? (intVals cs) ((cs.take i).countP (fun c => !c.isString)) = some n := by
  induction cs generalizing i with
  | nil => simp at hc
  | cons c r ih =>
      cases i with
      | zero =>
          simp only [List.getElem?_cons_zero, Option.some.injEq] at hc
          subst hc
          simp [intVals]
      | succ i =>
          simp only [List.getElem?_cons_succ] at hc
          cases c with
          | setString c0 v0 =>
              simp only [intVals, List.filterMap_cons, List.take_succ_cons,
                List.countP_cons, InfoCall.isString]
              simpa [intVals] using ih i hc
          | setNumber c0 v0 =>
              simp only [intVals, List.filterMap_cons, List.take_succ_cons,
                List.countP_cons, InfoCall.isString, Bool.not_true, Bool.not_false,
                if_true, ite_true]
              rw [List.getElem?_cons_succ]
              exact ih i hc

set_option maxRecDepth 10000 in
theorem infoFold_eq (cs : List InfoCall) (b : GetInfoBuilder) :
    cs.foldl applyCall b =
      { b with
        name_builder := b.name_builder ++ cs.map InfoCall.code
        type_id_vec := b.type_id_vec ++ cs.map InfoCall.tid
        offsets_vec := b.offsets_vec ++ offsetsFrom b.string_offset b.int64_offset cs
        string_array_builder := b.string_array_builder ++ strVals cs
        string_offset := wrapSucc b.string_offset (cs.countP (·.isString))
        int64_array_builder := b.int64_array_builder ++ intVals cs
        int64_offset := wrapSucc b.int64_offset (cs.countP (fun c => !c.isString)) } := by
  induction cs generalizing b with
  | nil => simp [offsetsFrom, strVals, intVals, wrapSucc]
  | cons c r ih =>
      rw [List.foldl_cons, ih]
      cases c with
      | setString c0 v0 =>
          cases b
          simp only [applyCall, GetInfoBuilder.set_string, offsetsFrom, strVals, intVals,
            List.map_cons, List.filterMap_cons, List.countP_cons, InfoCall.isString,
            InfoCall.code, InfoCall.tid, wrapSucc_shift, List.append_assoc,
            GetInfoBuilder.mk.injEq]
          simp [Nat.add_comm]
      | setNumber c0 v0 =>
          cases b
          simp only [applyCall, GetInfoBuilder.set_number, offsetsFrom, strVals, intVals,
            List.map_cons, List.filterMap_cons, List.countP_cons, InfoCall.isString,
            InfoCall.code, InfoCall.tid, wrapSucc_shift, List.append_assoc,
            GetInfoBuilder.mk.injEq]
          simp [Nat.add_comm]

theorem valueAt_string (u : InfoUnionArray) (i : Nat) (off : Int)
    (ht : getElem? u.type_ids i = some 0) (ho : getElem? u.offsets i = some off)
    (s : String) (hs : getElem? u.stringChild off.toNat = some s) :
    u.valueAt i = some (InfoVal.strVal s) := by
  unfold InfoUnionArray.valueAt
  rw [ht, ho]
  simp [hs]

theorem valueAt_number (u : InfoUnionArray) (i : Nat) (off : Int)
    (ht : getElem? u.type_ids i = some 2) (ho : getElem? u.offsets i = some off)
    (n : Int) (hn : getElem? u.int64Child off.toNat = some n) :
    u.valueAt i = some (InfoVal.int64Val n) := by
  unfold InfoUnionArray.valueAt
  rw [ht, ho]
  simp [hn]

/-- C6: for every sequence of `set_string`/`set_number` calls with unique
codes, the finished record has one row per call in call order; each row's
discriminant selects the string variant (type id 0) for `set_string` and the
int64 variant (type id 2) for `set_number`; its union offset equals the
number of earlier same-variant entries (dense per-variant packing); the
selected variant holds the supplied value; and an empty call sequence yields
a zero-row, well-typed record. -/
theorem C6_info_encoder (cs : List InfoCall) (r : GetInfoRecord)
    (hr : r = (runCalls cs).finish)
    (hU : (cs.map InfoCall.code).Nodup)
    (hL : (cs.length : Int) < 2 ^ 31) :
    r.info_name = cs.map InfoCall.code ∧
    r.info_name.length = cs.length ∧
    r.info_value.type_ids = cs.map InfoCall.tid ∧
    (∀ i code s, getElem? cs i = some (InfoCall.setString code s) →
      getElem? r.info_value.type_ids i = some 0 ∧
      getElem? r.info_value.offsets i = some (((cs.take i).countP (·.isString) : Nat) : Int) ∧
      r.info_value.valueAt i = some (InfoVal.strVal s)) ∧
    (∀ i code n, getElem? cs i = some (InfoCall.setNumber code n) →
      getElem? r.info_value.type_ids i = some 2 ∧
      getElem? r.info_value.offsets i =
        some (((cs.take i).countP (fun c => !c.isString) : Nat) : Int) ∧
      r.info_value.valueAt i = some (InfoVal.int64Val n)) ∧
    (cs = [] → r = ⟨[], ⟨[], [], [], [], [], [], [], []⟩⟩) := by
  subst hr
  rw [runCalls, infoFold_eq]
  simp only [GetInfoBuilder.finish, GetInfoBuilder.new, List.nil_append]
  refine ⟨by simp, by simp, by simp, ?_, ?_, ?_⟩
  · intro i code s hc
    have ht : getElem? (cs.map InfoCall.tid) i = some 0 := by
      rw [List.getElem?_map, hc]; rfl
    have hle : (((cs.take i).countP (·.isString) : Nat) : Int) < 2 ^ 31 := by
      have h1 : (cs.take i).countP (·.isString) ≤ (cs.take i).length :=
        List.countP_le_length _
      have h2 : (cs.take i).length ≤ cs.length := by
        simpa [List.length_take] using Nat.min_le_right i cs.length
      have h3 : (cs.take i).countP (·.isString) ≤ cs.length := le_trans h1 h2
      have h4 : (((cs.take i).countP (·.isString) : Nat) : Int) ≤ (cs.length : Int) := by
        exact_mod_cast h3
      omega
    have ho : getElem? (offsetsFrom 0 0 cs) i =
        some (((cs.take i).countP (·.isString) : Nat) : Int) := by
      rw [offsetsFrom_get_string cs 0 0 i code s hc, wrapSucc_zero_eq _ hle]
    have hsv := strVals_get cs i code s hc
    refine ⟨ht, ho, valueAt_string _ i _ ht ho s ?_⟩
    simpa using hsv
  · intro i code n hc
    have ht : getElem? (cs.map InfoCall.tid) i = some 2 := by
      rw [List.getElem?_map, hc]; rfl
    have hle : (((cs.take i).countP (fun c => !c.isString) : Nat) : Int) < 2 ^ 31 := by
      have h1 : (cs.take i).countP (fun c => !c.isString) ≤ (cs.take i).length :=
        List.countP_le_length _
      have h2 : (cs.take i).length ≤ cs.length := by
        simpa [List.length_take] using Nat.min_le_right i cs.length
      have h3 : (cs.take i).countP (fun c => !c.isString) ≤ cs.length := le_trans h1 h2
      have h4 : (((cs.take i).countP (fun c => !c.isString) : Nat) : Int) ≤ (cs.length : Int) := by
        exact_mod_cast h3
      omega
    have ho : getElem? (offsetsFrom 0 0 cs) i =
        some (((cs.take i).countP (fun c => !c.isString) : Nat) : Int) := by
      rw [offsetsFrom_get_number cs 0 0 i code n hc, wrapSucc_zero_eq _ hle]
    have hnv := intVals_get cs i code n hc
    refine ⟨ht, ho, valueAt_number _ i _ ht ho n ?_⟩
    simpa using hnv
  · intro h
    subst h
    rfl

/-- The concrete call sequence of spec scenario C. -/
def infoCallsSample : List InfoCall :=
  [InfoCall.setString 1 "Vendor", InfoCall.setNumber 2 110]

/-- Witness for C6 at scenario C: codes `[1, 2]`, row 0 decodes to the string
`"Vendor"` via the string variant, row 1 to the int64 `110`. -/
theorem C6_info_encoder_witness :
    (infoCallsSample.map InfoCall.code).Nodup ∧
    ((infoCallsSample.length : Int) < 2 ^ 31) ∧
    (runCalls infoCallsSample).finish.info_name = [1, 2] ∧
    (runCalls infoCallsSample).finish.info_value.valueAt 0 =
      some (InfoVal.strVal "Vendor") ∧
    (runCalls infoCallsSample).finish.info_value.valueAt 1 =
      some (InfoVal.int64Val 110) := by
  have h := C6_info_encoder infoCallsSample _ rfl (by decide) (by decide)
  refine ⟨by decide, by decide, ?_, ?_, ?_⟩
  · exact h.1
  · exact (h.2.2.2.1 0 1 "Vendor" (by decide)).2.2
  · exact (h.2.2.2.2.1 1 2 110 (by decide)).2.2

end AdbcClickhouse
